import Mathlib

/-!
Shallow embedding of the generic CMP client protocol core
(genericCMPClient.h and the accompanying specification).

The repository ships the public API header `include/genericCMPClient.h`;
the protocol engine (Session Context, Message Builder, Response Validator,
Polling Controller, Orchestrators) is described by the specification.
Definitions for those components are modelled from the spec, as noted in
their doc comments; the constants and the parameter/ownership conventions
come from the header itself.
-/

namespace GenCMPClient

/-- Byte strings (nonces, transaction ids, DER blobs) as lists of byte values. -/
abbrev Bytes := List Nat

/-- Request body kinds: the five command kinds of the header
(CMP_IR, CMP_CR, CMP_P10CR, CMP_KUR, CMP_RR) plus the exchange-internal
poll request and certificate-confirmation messages.  A revocation request
carries the target certificate's issuer/serial and a reason code (§4.2). -/
inductive ReqBody where
  | ir
  | cr
  | p10cr
  | kur
  | rr (issuerSerial : Bytes) (reason : Nat)
  | pollReq
  | certConf
deriving DecidableEq, Repr

/-- Response body kinds: certification responses (ip/cp/kup), revocation
response (rp), poll response, and the confirmation acknowledgement. -/
inductive RespKind where
  | ip
  | cp
  | kup
  | rp
  | pollRep
  | pkiConf
deriving DecidableEq, Repr

/-- Decoded PKIStatus of a response (§4.4): accepted (with the issued
certificate), rejected (status code, free-text reason, failure-info bits),
or waiting (with a server-suggested poll-after interval in seconds).
Accepted-with-warnings is treated as accepted and not distinguished here. -/
inductive PKIStatus where
  | accepted (cert : Bytes)
  | rejected (code : Nat) (reason : String) (failInfo : Nat)
  | waiting (checkAfter : Nat)
deriving DecidableEq, Repr

/-- Validation failures of §4.4/§7. -/
inductive ValidationError where
  | ReplayOrMisroute
  | NonceMismatch
  | ProtectionInvalid
  | UnexpectedBodyType
deriving DecidableEq, Repr

/-- Modelled from the spec (§4.4(d), implementation not under src/):
admissible response body types after a given request body: a certification
response only follows ir/cr/p10cr/kur, a revocation response only follows
rr, a poll response only follows a poll request, and a pkiConf only
follows a certConf. -/
def admissibleSuccessor : ReqBody → RespKind → Bool
  | .ir, .ip => true
  | .cr, .cp => true
  | .p10cr, .cp => true
  | .kur, .kup => true
  | .rr _ _, .rp => true
  | .pollReq, .pollRep => true
  | .certConf, .pkiConf => true
  | _, _ => false

/-- A received CMP response as seen by the Response Validator: header
correlation fields, whether its protection verifies against the configured
trust material or shared secret (the cryptographic check abstracted as its
boolean result), its body type, and its embedded status. -/
structure Response where
  transactionID : Bytes
  recipNonce : Bytes
  protectionOK : Bool
  bodyType : RespKind
  status : PKIStatus
deriving DecidableEq, Repr

/-- The transient exchange state the validator checks a response against:
the exchange's transaction id, the sender nonce of the most recently
transmitted message, and the body type of the last sent request. -/
structure ExchState where
  transactionID : Bytes
  senderNonce : Bytes
  lastSent : ReqBody
deriving DecidableEq, Repr

/-- Modelled from the spec (§4.4, implementation not under src/): minimum
poll-after floor (seconds) used when the server supplies an unreasonably
small or zero poll-after value. -/
def minPollFloor : Nat := 1

/-- Modelled from the spec (§4.4/§4.5, implementation not under src/): the
poll-after interval actually used: the server-suggested value, unless it is
unreasonably small (below the floor), in which case the floor is used. -/
def usedInterval (suggested : Nat) : Nat := max suggested minPollFloor

/-- Modelled from the spec (§4.4): decoding the embedded PKIStatus defaults
an unreasonably small waiting interval to the minimum floor. -/
def floorStatus : PKIStatus → PKIStatus
  | .waiting ca => .waiting (usedInterval ca)
  | s => s

/-- Modelled from the spec (§4.4, implementation not under src/): the
Response Validator.  Checks, in order: (a) transaction id equals the
exchange's id, else `ReplayOrMisroute`; (b) recipient nonce equals the
sender nonce most recently transmitted, else `NonceMismatch`; (c) the
protection verifies, else `ProtectionInvalid`; (d) the body type is an
admissible successor of the last sent request, else `UnexpectedBodyType`.
On success the embedded PKIStatus is decoded. -/
def validate (st : ExchState) (r : Response) : Except ValidationError PKIStatus :=
  if r.transactionID ≠ st.transactionID then .error .ReplayOrMisroute
  else if r.recipNonce ≠ st.senderNonce then .error .NonceMismatch
  else if r.protectionOK = false then .error .ProtectionInvalid
  else if admissibleSuccessor st.lastSent r.bodyType = false then .error .UnexpectedBodyType
  else .ok (floorStatus r.status)

/-- A built CMP request message (§3): transaction id, sender nonce,
recipient nonce (absent on the first message of an exchange), and body. -/
structure Msg where
  transactionID : Bytes
  senderNonce : Bytes
  recipNonce : Option Bytes
  body : ReqBody
deriving DecidableEq, Repr

/-- The Message Builder's per-exchange transient state: a counter-based
source of fresh values, the exchange's transaction id, the sender nonce of
the last sent message, and the nonce received from the CA (to be echoed). -/
structure BuildState where
  rng : Nat
  transactionID : Bytes
  senderNonce : Bytes
  recipNonce : Option Bytes
deriving DecidableEq, Repr

/-- Modelled from the spec (§4.2, implementation not under src/): fresh
nonce/transaction-id generation, abstracted as a counter: every generated
value is nonempty and distinct from all values generated earlier or later. -/
def genFresh (c : Nat) : Bytes × Nat := ([c], c + 1)

/-- Modelled from the spec (§4.2, implementation not under src/): build the
first message of an exchange with a freshly generated transaction id and
sender nonce and no recipient nonce. -/
def buildFirst (rng : Nat) (k : ReqBody) : Msg × BuildState :=
  let (tid, r1) := genFresh rng
  let (sn, r2) := genFresh r1
  (⟨tid, sn, none, k⟩, ⟨r2, tid, sn, none⟩)

/-- Record receipt of a response, keeping the CA's nonce for echoing. -/
def recordRecv (st : BuildState) (respNonce : Bytes) : BuildState :=
  { st with recipNonce := some respNonce }

/-- Modelled from the spec (§4.2, implementation not under src/): build a
subsequent message of the same exchange (poll, certConf): it reuses the
exchange's transaction id, generates a new sender nonce, and echoes the
previously received recipient nonce. -/
def buildNext (st : BuildState) (k : ReqBody) : Msg × BuildState :=
  let (sn, r1) := genFresh st.rng
  (⟨st.transactionID, sn, st.recipNonce, k⟩,
   ⟨r1, st.transactionID, sn, st.recipNonce⟩)

/-- Run the subsequent rounds of one exchange: each round receives a
response nonce from the CA and builds a follow-up message of the given
body kind. -/
def nextRounds (st : BuildState) : List (Bytes × ReqBody) → List Msg × BuildState
  | [] => ([], st)
  | (rn, k) :: rest =>
      let (m, st1) := buildNext (recordRecv st rn) k
      let (ms, st2) := nextRounds st1 rest
      (m :: ms, st2)

/-- All messages the client builds during one exchange: the first message
followed by one message per subsequent round. -/
def exchangeMsgs (rng : Nat) (k0 : ReqBody) (rounds : List (Bytes × ReqBody)) :
    List Msg :=
  let (m0, st0) := buildFirst rng k0
  m0 :: (nextRounds st0 rounds).1

/-- Whether a decoded status requests further polling. -/
def PKIStatus.isWaiting : PKIStatus → Bool
  | .waiting _ => true
  | _ => false

/-- Final outcome of an exchange (§3, §4.5, §5): the spec's tagged Outcome
variant, extended with the `timeout` outcome of §4.5/§5 and an outcome for
a failed confirmation acknowledgement (not further specified by the spec). -/
inductive Outcome where
  | accepted (cert : Bytes)
  | rejected (code : Nat) (reason : String) (failInfo : Nat)
  | waiting (checkAfter : Nat)
  | transportError
  | validationFailed (e : ValidationError)
  | timeout
  | confirmFailed
deriving DecidableEq, Repr

/-- Result of the polling loop: the outcome, how many poll requests were
sent, the cumulative elapsed seconds, and the sleep intervals performed. -/
structure PollResult where
  outcome : Outcome
  polls : Nat
  elapsed : Nat
  waits : List Nat
deriving DecidableEq, Repr

/-- Modelled from the spec (§4.5 and §5, implementation not under src/):
the Polling Controller loop.  `server n` is the validated status of the
n-th poll response.  Each iteration first checks the total-timeout budget
(once elapsed time reaches the configured total, any further wait is
skipped and `timeout` is produced immediately), then sleeps the
server-suggested interval (or the minimum floor), capped at the remaining
budget so that polling never exceeds the total timeout; a poll request is
only issued while the budget is not exhausted. -/
def pollLoop (server : Nat → PKIStatus) (total idx elapsed ca : Nat) : PollResult :=
  if total ≤ elapsed then ⟨.timeout, 0, elapsed, []⟩
  else
    let w := min (usedInterval ca) (total - elapsed)
    let e1 := elapsed + w
    if total ≤ e1 then ⟨.timeout, 0, e1, [w]⟩
    else
      match server idx with
      | .waiting ca1 =>
          let r := pollLoop server total (idx + 1) e1 ca1
          ⟨r.outcome, r.polls + 1, r.elapsed, w :: r.waits⟩
      | .accepted cert => ⟨.accepted cert, 1, e1, [w]⟩
      | .rejected c s f => ⟨.rejected c s f, 1, e1, [w]⟩
termination_by total - elapsed
decreasing_by
  simp only [usedInterval, minPollFloor] at *
  omega

/-- Enter the polling loop after a first Waiting response suggested
interval `ca`, with the whole total-timeout budget available. -/
def runPolling (server : Nat → PKIStatus) (total ca : Nat) : PollResult :=
  pollLoop server total 0 0 ca

/-- A reference certificate, as far as template resolution needs it: its
subject name and its Subject Alternative Names. -/
structure RefCert where
  subjectName : Bytes
  sans : List Bytes
deriving DecidableEq, Repr

/-- A PKCS#10 CSR, as far as template resolution needs it: its subject
name, its Subject Alternative Names, and whether it carries a usable key. -/
structure Csr where
  subjectName : Bytes
  sans : List Bytes
  hasKey : Bool
deriving DecidableEq, Repr

/-- An X.509v3 extension set: its Subject Alternative Name entries and the
remaining extensions as (OID, value) pairs. -/
structure ExtSet where
  sans : List Bytes
  others : List (Nat × Bytes)
deriving DecidableEq, Repr

/-- SANs carried by an optional explicit extension set. -/
def extsSans : Option ExtSet → List Bytes
  | none => []
  | some e => e.sans

/-- SANs carried by an optional CSR. -/
def csrSans : Option Csr → List Bytes
  | none => []
  | some c => c.sans

/-- SANs carried by an optional reference certificate. -/
def refSans : Option RefCert → List Bytes
  | none => []
  | some rc => rc.sans

/-- The four enrollment command kinds accepted by CMPclient_enroll. -/
inductive EnrollCmd where
  | ir
  | cr
  | p10cr
  | kur
deriving DecidableEq, Repr

/-- Modelled from the spec (§4.2 and the header doc of
CMPclient_setup_certreq; implementation not under src/): the Subject
Alternative Names of the resolved certificate template.  Explicit
extensions override SANs from the CSR; SANs default from the reference
certificate only when neither explicit extensions nor the CSR provide
SANs. -/
def resolvedSans (exts : Option ExtSet) (csr : Option Csr)
    (oldCert : Option RefCert) : List Bytes :=
  if extsSans exts ≠ [] then extsSans exts
  else if csrSans csr ≠ [] then csrSans csr
  else refSans oldCert

/-- Modelled from the spec (§4.2 and the header doc of
CMPclient_setup_certreq; implementation not under src/): the subject of
the resolved certificate template.  An explicitly given subject is used as
is; otherwise the subject defaults to the CSR's subject, else to the
reference certificate's subject — except that for IR and CR this default
is not applied when the explicit extensions or the CSR contain SANs. -/
def resolvedSubject (cmd : EnrollCmd) (subject : Option Bytes)
    (exts : Option ExtSet) (csr : Option Csr) (oldCert : Option RefCert) :
    Option Bytes :=
  match subject with
  | some s => some s
  | none =>
      if (cmd = .ir ∨ cmd = .cr) ∧ (extsSans exts ≠ [] ∨ csrSans csr ≠ []) then
        none
      else
        match csr with
        | some c => some c.subjectName
        | none => Option.map RefCert.subjectName oldCert

/-- The protocol-visible messages an orchestrator sends besides polls:
the initial request and the certificate-confirmation message. -/
inductive SentKind where
  | request
  | certConfMsg
deriving DecidableEq, Repr

/-- Modelled from the spec (§4.6, implementation not under src/): the
confirmation phase after a validated Accepted enrollment response.  With
implicit confirmation configured the certificate is returned at once and
no confirmation is sent; otherwise a certConf message is sent and the
certificate is returned only once the CA's acknowledgement succeeds. -/
def confirmPhase (implicitConfirm ackOK : Bool) (cert : Bytes) :
    Outcome × List SentKind :=
  if implicitConfirm then (.accepted cert, [])
  else if ackOK then (.accepted cert, [SentKind.certConfMsg])
  else (.confirmFailed, [SentKind.certConfMsg])

/-- Lift a polling-loop outcome into the enrollment epilogue: an accepted
certificate still goes through the confirmation phase. -/
def finishEnroll (implicitConfirm ackOK : Bool) : Outcome → Outcome × List SentKind
  | .accepted cert => confirmPhase implicitConfirm ackOK cert
  | o => (o, [])

/-- Modelled from the spec (§4.6, implementation not under src/): the
Enrollment Orchestrator after transport and §4.4 validation of the first
response (abstracted as the validated status `firstReply`; `server` gives
the validated statuses of the poll responses).  Accepted goes through the
confirmation phase; Waiting delegates to the Polling Controller; Rejected
is returned as the structured rejection. -/
def enrollExchange (implicitConfirm ackOK : Bool) (firstReply : PKIStatus)
    (server : Nat → PKIStatus) (total : Nat) : Outcome × List SentKind :=
  match firstReply with
  | .accepted cert =>
      let (o, s) := confirmPhase implicitConfirm ackOK cert
      (o, SentKind.request :: s)
  | .rejected c r f => (.rejected c r f, [SentKind.request])
  | .waiting ca =>
      let (o, s) := finishEnroll implicitConfirm ackOK
        (runPolling server total ca).outcome
      (o, SentKind.request :: s)

/-- Modelled from the spec (§4.7, implementation not under src/): the
Revocation Orchestrator: a single round: build the revocation request
carrying the target certificate's issuer/serial and the caller-supplied
reason code, send it, validate the response (§4.4), and surface the
decoded status; a Rejected status is surfaced with the CA's stated reason
text and failure-info bits verbatim. -/
def revokeExchange (rng : Nat) (issuerSerial : Bytes) (reason : Nat)
    (server : Msg → Response) : Outcome :=
  let (m, _st) := buildFirst rng (.rr issuerSerial reason)
  let resp := server m
  match validate ⟨m.transactionID, m.senderNonce, m.body⟩ resp with
  | .error e => .validationFailed e
  | .ok (.accepted c) => .accepted c
  | .ok (.rejected c r f) => .rejected c r f
  | .ok (.waiting ca) => .waiting ca

/-- The CMP error codes of genericCMPClient.h. -/
def CMP_OK : Nat := 0

def CMP_R_OTHER_LIB_ERR : Nat := 99

def CMP_R_INVALID_CONTEXT : Nat := 250

/-- Modelled from the spec: CMP_R_INVALID_ARGS is defined in cmperr.h,
which is outside src/; only its being a nonzero error code matters here. -/
def CMP_R_INVALID_ARGS : Nat := 100

def CMP_R_INVALID_PARAMETERS : Nat := CMP_R_INVALID_ARGS

/-- The request-kind command codes of genericCMPClient.h. -/
def CMP_IR : Nat := 0

def CMP_CR : Nat := 2

def CMP_P10CR : Nat := 4

def CMP_KUR : Nat := 7

def CMP_RR : Nat := 11

/-- The enrollment command kind denoted by an integer command code, if any:
CMPclient_enroll accepts exactly CMP_IR, CMP_CR, CMP_P10CR, and CMP_KUR. -/
def cmdKind (cmd : Nat) : Option EnrollCmd :=
  if cmd = CMP_IR then some .ir
  else if cmd = CMP_CR then some .cr
  else if cmd = CMP_P10CR then some .p10cr
  else if cmd = CMP_KUR then some .kur
  else none

/-- The inputs of CMPclient_setup_certreq retained in the context (the
header notes all 'const' parameters are copied into the context). -/
structure CertReqInputs where
  subject : Option Bytes
  exts : Option ExtSet
  csr : Option Csr
  oldCert : Option RefCert
deriving DecidableEq, Repr

/-- Modelled from the spec (§3/§4.1, implementation not under src/): the
client Context: configuration, the owned transport and cached response,
the per-exchange transient builder state, the stored certificate-request
template inputs, and whether the context has been finished. -/
structure ClientCtx where
  implicitConfirm : Bool
  totalTimeout : Nat
  hasTransport : Bool
  cachedResponse : Option Response
  transient : Option BuildState
  template : Option CertReqInputs
  rng : Nat
  finished : Bool
deriving DecidableEq, Repr

/-- Modelled from the spec (§4.1 and the header: CMPclient_finish;
implementation not under src/): releases the owned resources (transport,
cached response) and marks the Context so that subsequent use fails with
`InvalidContext`. -/
def CMPclient_finish (c : ClientCtx) : ClientCtx :=
  { c with hasTransport := false, cachedResponse := none,
           transient := none, finished := true }

/-- Modelled from the spec (§4.2 and the header: CMPclient_setup_certreq;
implementation not under src/): stores the certificate-template inputs in
the context; on a finished context it fails with `InvalidContext` and
leaves the context unchanged. -/
def CMPclient_setup_certreq (c : ClientCtx) (subject : Option Bytes)
    (exts : Option ExtSet) (csr : Option Csr) (oldCert : Option RefCert) :
    Nat × ClientCtx :=
  if c.finished then (CMP_R_INVALID_CONTEXT, c)
  else (CMP_OK, { c with template := some ⟨subject, exts, csr, oldCert⟩ })

/-- The error code an exchange outcome maps to (the specific nonzero codes
of failed exchanges are not modelled further). -/
def outcomeErr : Outcome → Nat
  | .accepted _ => CMP_OK
  | _ => CMP_R_OTHER_LIB_ERR

/-- The enrolled certificate an outcome delivers, if any. -/
def outcomeCert : Outcome → Option Bytes
  | .accepted cert => some cert
  | _ => none

/-- Modelled from the spec (§4.6, §6 and the header: CMPclient_enroll;
implementation not under src/): performs the given type of certificate
request.  On a finished context it fails with `InvalidContext`; on a
command code other than CMP_IR, CMP_CR, CMP_P10CR, CMP_KUR it fails with
invalid parameters; in both cases no credentials are stored and no
protocol message is sent.  Otherwise it runs the enrollment exchange and
stores the new credentials on acceptance. -/
def CMPclient_enroll (c : ClientCtx) (cmd : Nat) (firstReply : PKIStatus)
    (server : Nat → PKIStatus) (ackOK : Bool) :
    Nat × Option Bytes × List SentKind :=
  if c.finished then (CMP_R_INVALID_CONTEXT, none, [])
  else
    match cmdKind cmd with
    | none => (CMP_R_INVALID_PARAMETERS, none, [])
    | some _k =>
        let (o, sent) := enrollExchange c.implicitConfirm ackOK firstReply
          server c.totalTimeout
        (outcomeErr o, outcomeCert o, sent)

/-- Modelled from the spec (§4.7 and the header: CMPclient_revoke;
implementation not under src/): revocation entry point; on a finished
context it fails with `InvalidContext` and performs no protocol action. -/
def CMPclient_revoke (c : ClientCtx) (issuerSerial : Bytes) (reason : Nat)
    (server : Msg → Response) : Nat × Option Outcome :=
  if c.finished then (CMP_R_INVALID_CONTEXT, none)
  else
    let o := revokeExchange c.rng issuerSerial reason server
    (outcomeErr o, some o)

/-- Modelled from the spec (§4.1 and the header: CMPclient_reinit;
implementation not under src/): clears the transient exchange state so a
new exchange can start; on a finished context it fails with
`InvalidContext`. -/
def CMPclient_reinit (c : ClientCtx) : Nat × ClientCtx :=
  if c.finished then (CMP_R_INVALID_CONTEXT, c)
  else (CMP_OK, { c with transient := none, cachedResponse := none })

end GenCMPClient

namespace GenCMPClient

/-- C1: for every received response, validation performs its checks in the
fixed order transaction-id, recipient-nonce, protection, body-type, and
returns the error of the first failing check; in particular a recipient
nonce differing from the last sent sender nonce is rejected with
`NonceMismatch` even when the protection verifies (the protection flag is
arbitrary in the second conjunct). -/
theorem validate_check_order (st : ExchState) (r : Response) :
    (r.transactionID ≠ st.transactionID →
      validate st r = .error .ReplayOrMisroute)
  ∧ (r.transactionID = st.transactionID → r.recipNonce ≠ st.senderNonce →
      validate st r = .error .NonceMismatch)
  ∧ (r.transactionID = st.transactionID → r.recipNonce = st.senderNonce →
      r.protectionOK = false → validate st r = .error .ProtectionInvalid)
  ∧ (r.transactionID = st.transactionID → r.recipNonce = st.senderNonce →
      r.protectionOK = true → admissibleSuccessor st.lastSent r.bodyType = false →
      validate st r = .error .UnexpectedBodyType) := by
  refine ⟨?_, ?_, ?_, ?_⟩ <;> intros <;> simp_all [validate]

/-- C1 witness: a concrete response whose transaction id matches, whose
recipient nonce mismatches, and whose protection verifies is rejected with
`NonceMismatch`. -/
theorem validate_check_order_witness :
    validate ⟨[1], [2], .ir⟩ ⟨[1], [3], true, .ip, .accepted [9]⟩
      = .error .NonceMismatch :=
  (validate_check_order ⟨[1], [2], .ir⟩ ⟨[1], [3], true, .ip, .accepted [9]⟩).2.1
    rfl (by decide)

/-- The used poll interval is positive. -/
theorem usedInterval_pos (ca : Nat) : 1 ≤ usedInterval ca := Nat.le_max_right ca 1

/-- Invariants of the polling loop, by induction on the remaining budget:
the final elapsed time never exceeds the total timeout, at most one poll
is sent per elapsed second of budget, every sleep interval respects the
minimum floor, and a server that keeps answering Waiting forces the
`timeout` outcome. -/
theorem pollLoop_spec (server : Nat → PKIStatus) (total : Nat) :
    ∀ k idx elapsed ca, total - elapsed ≤ k →
      (elapsed ≤ total → (pollLoop server total idx elapsed ca).elapsed ≤ total)
    ∧ (pollLoop server total idx elapsed ca).polls ≤ total - elapsed
    ∧ (∀ w ∈ (pollLoop server total idx elapsed ca).waits, minPollFloor ≤ w)
    ∧ ((∀ n, (server n).isWaiting = true) →
        (pollLoop server total idx elapsed ca).outcome = .timeout) := by
  intro k
  induction k with
  | zero =>
      intro idx elapsed ca hk
      have h1 : total ≤ elapsed := by omega
      rw [pollLoop]
      simp only [if_pos h1]
      exact ⟨fun hle => hle, by omega, by simp, fun _ => trivial⟩
  | succ k ih =>
      intro idx elapsed ca hk
      by_cases h1 : total ≤ elapsed
      · rw [pollLoop]
        simp only [if_pos h1]
        exact ⟨fun hle => hle, by omega, by simp, fun _ => trivial⟩
      · have hu := usedInterval_pos ca
        have hwpos : 1 ≤ min (usedInterval ca) (total - elapsed) := by omega
        by_cases h2 : total ≤ elapsed + min (usedInterval ca) (total - elapsed)
        · rw [pollLoop]
          simp only [if_neg h1, if_pos h2]
          refine ⟨fun _ => by omega, by omega, ?_, fun _ => trivial⟩
          intro x hx
          simp only [List.mem_singleton] at hx
          subst hx
          simpa [minPollFloor] using hwpos
        · rw [pollLoop]
          simp only [if_neg h1, if_neg h2]
          cases hs : server idx with
          | waiting ca1 =>
              simp only
              obtain ⟨ih1, ih2, ih3, ih4⟩ :=
                ih (idx + 1) (elapsed + min (usedInterval ca) (total - elapsed)) ca1
                  (by omega)
              refine ⟨fun _ => ih1 (by omega), by omega, ?_, fun hW => ih4 hW⟩
              intro x hx
              simp only [List.mem_cons] at hx
              rcases hx with rfl | hx
              · simpa [minPollFloor] using hwpos
              · exact ih3 x hx
          | accepted cert =>
              simp only
              refine ⟨fun _ => by omega, by omega, ?_, fun hW => ?_⟩
              · intro x hx
                simp only [List.mem_singleton] at hx
                subst hx
                simpa [minPollFloor] using hwpos
              · have hn := hW idx
                rw [hs] at hn
                simp [PKIStatus.isWaiting] at hn
          | rejected c s f =>
              simp only
              refine ⟨fun _ => by omega, by omega, ?_, fun hW => ?_⟩
              · intro x hx
                simp only [List.mem_singleton] at hx
                subst hx
                simpa [minPollFloor] using hwpos
              · have hn := hW idx
                rw [hs] at hn
                simp [PKIStatus.isWaiting] at hn

/-- C2: for every server response sequence, the polling loop never
continues past the total timeout budget: final elapsed time stays within
the total, at most one poll request is issued per second of budget, and an
infinite sequence of Waiting responses terminates the exchange with the
`timeout` outcome. -/
theorem polling_respects_total_timeout (server : Nat → PKIStatus) (total ca : Nat) :
    (runPolling server total ca).elapsed ≤ total
  ∧ (runPolling server total ca).polls ≤ total
  ∧ ((∀ n, (server n).isWaiting = true) →
      (runPolling server total ca).outcome = .timeout) := by
  simp only [runPolling]
  obtain ⟨h1, h2, _h3, h4⟩ := pollLoop_spec server total total 0 0 ca (by omega)
  exact ⟨h1 (Nat.zero_le _), by omega, h4⟩

/-- C2 witness: an infinite sequence of Waiting responses with a total
timeout of 2 seconds yields the `timeout` outcome. -/
theorem polling_respects_total_timeout_witness :
    (runPolling (fun _ => PKIStatus.waiting 1) 2 1).outcome = Outcome.timeout :=
  (polling_respects_total_timeout (fun _ => PKIStatus.waiting 1) 2 1).2.2
    (fun _ => rfl)

/-- Shape of the messages built by the subsequent rounds of one exchange:
they all carry the exchange's transaction id, their sender nonces are the
successive fresh values of the counter, and each echoes the nonce received
in the round it answers. -/
theorem nextRounds_spec (rounds : List (Bytes × ReqBody)) :
    ∀ st : BuildState,
      ((nextRounds st rounds).1.map Msg.transactionID
          = rounds.map (fun _ => st.transactionID))
    ∧ ((nextRounds st rounds).1.map Msg.senderNonce
          = (List.range rounds.length).map (fun i => [st.rng + i]))
    ∧ List.Forall₂ (fun (m : Msg) (p : Bytes × ReqBody) => m.recipNonce = some p.1)
        (nextRounds st rounds).1 rounds := by
  induction rounds with
  | nil => intro st; simp [nextRounds]
  | cons p rest ih =>
      intro st
      obtain ⟨rn, k⟩ := p
      obtain ⟨ih1, ih2, ih3⟩ :=
        ih ⟨st.rng + 1, st.transactionID, [st.rng], some rn⟩
      refine ⟨?_, ?_, ?_⟩
      · simpa [nextRounds, buildNext, recordRecv, genFresh] using ih1
      · simp only [nextRounds, buildNext, recordRecv, genFresh, List.map_cons,
          List.length_cons, List.range_succ_eq_map, List.map_map]
        rw [ih2]
        refine List.cons_eq_cons.mpr ⟨by simp, ?_⟩
        refine List.map_congr_left ?_
        intro i _
        simp [Function.comp]
        omega
      · refine List.Forall₂.cons ?_ ?_
        · rfl
        · simpa [nextRounds, buildNext, recordRecv, genFresh] using ih3

/-- C3: for every exchange of every request kind, the first built message
carries a freshly generated nonempty transaction id and sender nonce and
no recipient nonce; every message of the exchange carries the identical
transaction id; all sender nonces are nonempty and pairwise distinct
(each one newly generated); and every subsequent message echoes the
recipient nonce received in the round before it. -/
theorem exchange_tid_nonce_correlation (rng : Nat) (k0 : ReqBody)
    (rounds : List (Bytes × ReqBody)) :
    (buildFirst rng k0).1.transactionID ≠ []
  ∧ (buildFirst rng k0).1.senderNonce ≠ []
  ∧ (buildFirst rng k0).1.recipNonce = none
  ∧ (∀ m ∈ exchangeMsgs rng k0 rounds,
      m.transactionID = (buildFirst rng k0).1.transactionID)
  ∧ (∀ m ∈ exchangeMsgs rng k0 rounds, m.senderNonce ≠ [])
  ∧ ((exchangeMsgs rng k0 rounds).map Msg.senderNonce).Nodup
  ∧ List.Forall₂ (fun (m : Msg) (p : Bytes × ReqBody) => m.recipNonce = some p.1)
      (exchangeMsgs rng k0 rounds).tail rounds := by
  obtain ⟨h1, h2, h3⟩ :=
    nextRounds_spec rounds ⟨rng + 2, [rng], [rng + 1], none⟩
  have hmsgs : exchangeMsgs rng k0 rounds
      = ⟨[rng], [rng + 1], none, k0⟩ ::
        (nextRounds ⟨rng + 2, [rng], [rng + 1], none⟩ rounds).1 := by
    simp [exchangeMsgs, buildFirst, genFresh]
  refine ⟨by simp [buildFirst, genFresh], by simp [buildFirst, genFresh],
    by simp [buildFirst, genFresh], ?_, ?_, ?_, ?_⟩
  · intro m hm
    rw [hmsgs] at hm
    simp only [buildFirst, genFresh]
    rcases List.mem_cons.mp hm with rfl | hm
    · rfl
    · have : m.transactionID ∈
          (nextRounds ⟨rng + 2, [rng], [rng + 1], none⟩ rounds).1.map
            Msg.transactionID :=
        List.mem_map_of_mem _ hm
      rw [h1] at this
      obtain ⟨p, _, hp⟩ := List.mem_map.mp this
      exact hp.symm
  · intro m hm
    rw [hmsgs] at hm
    rcases List.mem_cons.mp hm with rfl | hm
    · simp
    · have : m.senderNonce ∈
          (nextRounds ⟨rng + 2, [rng], [rng + 1], none⟩ rounds).1.map
            Msg.senderNonce :=
        List.mem_map_of_mem _ hm
      rw [h2] at this
      obtain ⟨i, _, hi⟩ := List.mem_map.mp this
      rw [← hi]
      simp
  · rw [hmsgs]
    simp only [List.map_cons]
    refine List.nodup_cons.mpr ⟨?_, ?_⟩
    · rw [h2]
      intro hmem
      obtain ⟨i, _, hi⟩ := List.mem_map.mp hmem
      simp only [List.cons.injEq, and_true] at hi
      omega
    · rw [h2]
      refine (List.nodup_range rounds.length).map ?_
      intro i j hij
      simp only [List.cons.injEq, and_true] at hij
      omega
  · rw [hmsgs]
    simpa using h3

/-- C3 witness: in a concrete exchange (an IR followed by one poll round),
the poll message carries the same transaction id as the first message. -/
theorem exchange_tid_nonce_correlation_witness :
    Msg.transactionID ⟨[0], [2], some [9], ReqBody.pollReq⟩
      = (buildFirst 0 ReqBody.ir).1.transactionID :=
  (exchange_tid_nonce_correlation 0 ReqBody.ir [([9], ReqBody.pollReq)]).2.2.2.1
    ⟨[0], [2], some [9], ReqBody.pollReq⟩ (by decide)

/-- C4 counterexample: for an IR whose Subject Alternative Names come only
from the reference certificate (no explicit extensions, no CSR), the
resolved extension set does carry a SAN, yet the subject default from the
reference certificate is applied rather than suppressed: the claim as
stated fails here. -/
theorem subject_default_ref_sans_counterexample :
    resolvedSans none none (some ⟨[7], [[1]]⟩) ≠ []
  ∧ resolvedSubject .ir none none none (some ⟨[7], [[1]]⟩) = some [7] := by
  exact ⟨by decide, by decide⟩

/-- C4 amended: when building an IR or CR request, the subject-name
default is suppressed when the explicit extensions or the CSR carry a
Subject Alternative Name; SANs inherited only from the reference
certificate do not suppress the default: with no CSR the subject then
defaults to the reference certificate's subject. -/
theorem subject_default_san_suppression (cmd : EnrollCmd)
    (exts : Option ExtSet) (csr : Option Csr) (oldCert : Option RefCert) :
    ((cmd = .ir ∨ cmd = .cr) → (extsSans exts ≠ [] ∨ csrSans csr ≠ []) →
      resolvedSubject cmd none exts csr oldCert = none)
  ∧ (extsSans exts = [] → csrSans csr = [] → csr = none →
      resolvedSubject cmd none exts csr oldCert
        = Option.map RefCert.subjectName oldCert) := by
  constructor
  · intro hcmd hsan
    simp only [resolvedSubject]
    rw [if_pos ⟨hcmd, hsan⟩]
  · intro he hc hnone
    subst hnone
    simp [resolvedSubject, he, hc]

/-- C4 witness: an IR with an explicit SAN extension and no explicit
subject gets no defaulted subject, even though both a CSR subject and a
reference-certificate subject are available. -/
theorem subject_default_san_suppression_witness :
    resolvedSubject .ir none (some ⟨[[2]], []⟩) (some ⟨[5], [], true⟩)
      (some ⟨[7], []⟩) = none :=
  (subject_default_san_suppression .ir (some ⟨[[2]], []⟩) (some ⟨[5], [], true⟩)
    (some ⟨[7], []⟩)).1 (Or.inl rfl) (Or.inl (by decide))

/-- C5: when an enrollment response is Accepted and implicit confirmation
is not configured, the orchestrator sends a certConf message, and the
certificate is returned exactly when the CA's acknowledgement succeeds;
with implicit confirmation in effect the certificate is returned at once
and no confirmation message is sent. -/
theorem enroll_confirmation_gate (ackOK : Bool) (cert : Bytes)
    (server : Nat → PKIStatus) (total : Nat) :
    ((enrollExchange false ackOK (.accepted cert) server total).2
        = [SentKind.request, SentKind.certConfMsg]
      ∧ ((enrollExchange false ackOK (.accepted cert) server total).1
          = .accepted cert ↔ ackOK = true))
  ∧ enrollExchange true ackOK (.accepted cert) server total
      = (.accepted cert, [SentKind.request]) := by
  cases ackOK <;> simp [enrollExchange, confirmPhase]

/-- C6: a well-formed, authenticated Rejected response to a revocation
request yields an Outcome carrying the CA's stated reason text and
failure-info bits verbatim, not a generic failure. -/
theorem revoke_rejected_reason_verbatim (rng : Nat) (issuerSerial : Bytes)
    (reason code fi : Nat) (txt : String) (server : Msg → Response)
    (hEcho : ∀ m, (server m).transactionID = m.transactionID
      ∧ (server m).recipNonce = m.senderNonce
      ∧ (server m).protectionOK = true
      ∧ (server m).bodyType = .rp)
    (hStat : ∀ m, (server m).status = .rejected code txt fi) :
    revokeExchange rng issuerSerial reason server = .rejected code txt fi := by
  obtain ⟨h1, h2, h3, h4⟩ := hEcho (buildFirst rng (.rr issuerSerial reason)).1
  have h5 := hStat (buildFirst rng (.rr issuerSerial reason)).1
  simp [revokeExchange, validate, h1, h2, h3, h4, h5, admissibleSuccessor,
    floorStatus, buildFirst, genFresh] at *

/-- C6 witness: a revocation with reason code 1 (keyCompromise) against a
CA stub that rejects with reason "certificate not found" yields exactly
that reason text in the Outcome. -/
theorem revoke_rejected_reason_verbatim_witness :
    revokeExchange 0 [3] 1
      (fun m => ⟨m.transactionID, m.senderNonce, true, .rp,
        .rejected 2 "certificate not found" 32⟩)
      = .rejected 2 "certificate not found" 32 :=
  revoke_rejected_reason_verbatim 0 [3] 1 2 32 "certificate not found"
    (fun m => ⟨m.transactionID, m.senderNonce, true, .rp,
      .rejected 2 "certificate not found" 32⟩)
    (fun _ => ⟨rfl, rfl, rfl, rfl⟩) (fun _ => rfl)

/-- C7: the poll-after interval actually used is at least the minimum
floor, equals the server-suggested interval when that is reasonable (at
least the floor), is replaced by the floor when the server supplies an
unreasonably small value, and every sleep the polling loop performs
respects the floor. -/
theorem poll_interval_floor_used (s : Nat) (server : Nat → PKIStatus)
    (total ca : Nat) :
    minPollFloor ≤ usedInterval s
  ∧ (minPollFloor ≤ s → usedInterval s = s)
  ∧ (s < minPollFloor → usedInterval s = minPollFloor)
  ∧ (∀ w ∈ (runPolling server total ca).waits, minPollFloor ≤ w) := by
  obtain ⟨_, _, h3, _⟩ := pollLoop_spec server total total 0 0 ca (by omega)
  refine ⟨?_, fun h => ?_, fun h => ?_, h3⟩
  · exact Nat.le_max_right s minPollFloor
  · exact Nat.max_eq_left h
  · exact Nat.max_eq_right (Nat.le_of_lt h)

/-- C7 witness: a zero suggested interval is replaced by the floor, and a
reasonable suggested interval of 5 seconds is used as given. -/
theorem poll_interval_floor_used_witness :
    usedInterval 0 = minPollFloor ∧ usedInterval 5 = 5 :=
  ⟨(poll_interval_floor_used 0 (fun _ => PKIStatus.waiting 1) 2 1).2.2.1
      (by decide),
   (poll_interval_floor_used 5 (fun _ => PKIStatus.waiting 1) 2 1).2.1
      (by decide)⟩

/-- C8: finish releases the owned transport and cached response, and every
subsequent operation on the finished Context fails with
CMP_R_INVALID_CONTEXT without performing any protocol action: enroll
stores no credentials and sends nothing, revoke produces no outcome, and
setup_certreq and reinit leave the context unchanged. -/
theorem finished_context_rejects_all (c : ClientCtx) (cmd : Nat)
    (firstReply : PKIStatus) (server : Nat → PKIStatus) (ackOK : Bool)
    (subject : Option Bytes) (exts : Option ExtSet) (csr : Option Csr)
    (oldCert : Option RefCert) (issuerSerial : Bytes) (reason : Nat)
    (rserver : Msg → Response) :
    (CMPclient_finish c).hasTransport = false
  ∧ (CMPclient_finish c).cachedResponse = none
  ∧ CMPclient_enroll (CMPclient_finish c) cmd firstReply server ackOK
      = (CMP_R_INVALID_CONTEXT, none, [])
  ∧ CMPclient_revoke (CMPclient_finish c) issuerSerial reason rserver
      = (CMP_R_INVALID_CONTEXT, none)
  ∧ CMPclient_setup_certreq (CMPclient_finish c) subject exts csr oldCert
      = (CMP_R_INVALID_CONTEXT, CMPclient_finish c)
  ∧ CMPclient_reinit (CMPclient_finish c)
      = (CMP_R_INVALID_CONTEXT, CMPclient_finish c) := by
  simp [CMPclient_finish, CMPclient_enroll, CMPclient_revoke,
    CMPclient_setup_certreq, CMPclient_reinit]

/-- C9: for every command code outside CMP_IR, CMP_CR, CMP_P10CR, CMP_KUR,
CMPclient_enroll on a usable context fails with the invalid-parameters
error code, which is nonzero, stores no credentials, and sends nothing. -/
theorem enroll_invalid_cmd_rejected (c : ClientCtx) (cmd : Nat)
    (firstReply : PKIStatus) (server : Nat → PKIStatus) (ackOK : Bool)
    (hc : c.finished = false)
    (hcmd : cmd ≠ CMP_IR ∧ cmd ≠ CMP_CR ∧ cmd ≠ CMP_P10CR ∧ cmd ≠ CMP_KUR) :
    CMPclient_enroll c cmd firstReply server ackOK
      = (CMP_R_INVALID_PARAMETERS, none, [])
  ∧ CMP_R_INVALID_PARAMETERS ≠ CMP_OK := by
  obtain ⟨h1, h2, h3, h4⟩ := hcmd
  refine ⟨?_, by decide⟩
  simp [CMPclient_enroll, hc, cmdKind, h1, h2, h3, h4]

/-- C9 witness: CMP_RR (11) is not an enrollment command: on a fresh
context, enroll fails with invalid parameters and stores nothing. -/
theorem enroll_invalid_cmd_rejected_witness :
    CMPclient_enroll ⟨false, 10, true, none, none, none, 0, false⟩ CMP_RR
      (.waiting 1) (fun _ => .waiting 1) true
      = (CMP_R_INVALID_PARAMETERS, none, []) :=
  (enroll_invalid_cmd_rejected ⟨false, 10, true, none, none, none, 0, false⟩
    CMP_RR (.waiting 1) (fun _ => .waiting 1) true rfl
    ⟨by decide, by decide, by decide, by decide⟩).1

end GenCMPClient
